/-
Verification of the natural-language specification of the ICEicle DG/MDG-ICE
finite element engine against its C++ sources.

Scalar arithmetic of the C++ `double` type is idealised as exact rational
arithmetic (ℚ); machine-integer arithmetic keeps its C++ modulus where it
matters (`unsigned int` is 32 bits).  Each embedded definition carries the name
of the C++ entity it translates.
-/
import Mathlib

namespace ICEicle

/-! ## face_info packing (face.hpp)

`face_info = face_nr*512 + orientation` is stored in an `unsigned int` member
(`Face::face_infoL`), hence is reduced modulo 2^32.  `FACE_INFO_MOD = 512`.
-/

/-- `FACE_INFO_MOD` from face.hpp: `face_info / FACE_INFO_MOD` is the face
number, `face_info % FACE_INFO_MOD` the orientation. -/
def FACE_INFO_MOD : ℕ := 512

/-- Modulus of the C++ `unsigned int` type holding `face_infoL`/`face_infoR`. -/
def UINT_MOD : ℕ := 2 ^ 32

/-- Construction of the packed `face_info` word `face_nr*512 + orientation`,
reduced by the wrap-around of the 32-bit unsigned member it is stored in. -/
def pack_face_info (face_nr orient : ℕ) : ℕ :=
  (face_nr * 512 + orient) % UINT_MOD

/-- `Face::face_nr_l` (face.hpp line 326): `face_infoL / FACE_INFO_MOD`. -/
def face_nr_l (face_info : ℕ) : ℕ := face_info / FACE_INFO_MOD

/-- `Face::orientation_r` (face.hpp line 333): `face_infoR % FACE_INFO_MOD`. -/
def orientation_r (face_info : ℕ) : ℕ := face_info % FACE_INFO_MOD

/-! ## Boundary condition name lookup (face.hpp lines 23-166) -/

/-- `BOUNDARY_CONDITIONS` enumeration from face.hpp. -/
inductive BOUNDARY_CONDITIONS : Type
  | PERIODIC
  | PARALLEL_COM
  | NEUMANN
  | DIRICHLET
  | EXTRAPOLATION
  | RIEMANN
  | NO_SLIP_ISOTHERMAL
  | SLIP_WALL
  | WALL_GENERAL
  | INLET
  | OUTLET
  | SPACETIME_PAST
  | SPACETIME_FUTURE
  | INTERIOR
  deriving DecidableEq, Repr

/-- Modelled from the spec: `iceicle::util::eq_icase` (string_utils.hpp is not in
the tree) is case-insensitive string equality. -/
def eq_icase (a b : String) : Bool :=
  a.data.map Char.toLower == b.data.map Char.toLower

/-- Modelled from the spec: `eq_icase_any` compares case-insensitively against
any of the listed names. -/
def eq_icase_any (a : String) (bs : List String) : Bool :=
  bs.any (eq_icase a)

/-- `get_bc_from_name` (face.hpp lines 126-166): translate a configuration name
to a boundary condition, falling through to `INTERIOR` when nothing matches. -/
def get_bc_from_name (bcname : String) : BOUNDARY_CONDITIONS :=
  if eq_icase bcname "dirichlet" then .DIRICHLET
  else if eq_icase bcname "neumann" then .NEUMANN
  else if eq_icase bcname "extrapolation" then .EXTRAPOLATION
  else if eq_icase bcname "spacetime-future" then .SPACETIME_FUTURE
  else if eq_icase bcname "spacetime-past" then .SPACETIME_PAST
  else if eq_icase bcname "slip wall" then .SLIP_WALL
  else if eq_icase_any bcname ["isothermal", "no-slip isothermal"] then .NO_SLIP_ISOTHERMAL
  else if eq_icase_any bcname ["wall", "general wall"] then .NO_SLIP_ISOTHERMAL
  else if eq_icase_any bcname ["riemann", "characteristic"] then .RIEMANN
  else .INTERIOR

/-- Modelled from the spec: the error-handling design says an unknown BC name is
a configuration error that is reported before any assembly and is fatal; this
spec-side lookup therefore returns `none` (the fatal error) on the same set of
recognized names the source handles. -/
def get_bc_from_name_spec (bcname : String) : Option BOUNDARY_CONDITIONS :=
  if eq_icase bcname "dirichlet" then some .DIRICHLET
  else if eq_icase bcname "neumann" then some .NEUMANN
  else if eq_icase bcname "extrapolation" then some .EXTRAPOLATION
  else if eq_icase bcname "spacetime-future" then some .SPACETIME_FUTURE
  else if eq_icase bcname "spacetime-past" then some .SPACETIME_PAST
  else if eq_icase bcname "slip wall" then some .SLIP_WALL
  else if eq_icase_any bcname ["isothermal", "no-slip isothermal"] then some .NO_SLIP_ISOTHERMAL
  else if eq_icase_any bcname ["wall", "general wall"] then some .NO_SLIP_ISOTHERMAL
  else if eq_icase_any bcname ["riemann", "characteristic"] then some .RIEMANN
  else none

/-! ## perturb_nodes (mesh_utils.hpp lines 504-524)

The guard in the source reads `if( true || !fixed_nodes[inode])`, so the
`fixed_nodes` argument is never consulted.
-/

/-- Loop body of `perturb_nodes`: walk the node array with its index, applying
the perturbation function under the source's literal guard
`true || !fixed_nodes[inode]`. -/
def perturb_nodes_go {α : Type} (perturb_func : α → α) (fixed_nodes : List Bool) :
    ℕ → List α → List α
  | _, [] => []
  | inode, x :: rest =>
      (if true || !(fixed_nodes.getD inode false) then perturb_func x else x) ::
        perturb_nodes_go perturb_func fixed_nodes (inode + 1) rest

/-- `perturb_nodes` (mesh_utils.hpp): perturb the mesh node array in index
order. -/
def perturb_nodes {α : Type} (nodes : List α) (perturb_func : α → α)
    (fixed_nodes : List Bool) : List α :=
  perturb_nodes_go perturb_func fixed_nodes 0 nodes

/-! ## DDG trace computations (conservation_law.hpp)

Per-quadrature-point computations of `ConservationLawDDG::trace_integral`,
`boundaryIntegral` and `interface_conservation`.  The geometric quantities a
quadrature point carries (unit normal, physical point, centroids, basis
evaluations in the physical frame, quadrature weight, Riemannian root
determinant) are taken as inputs, exactly as the source receives them from the
trace-space cache.
-/

/-- Machine epsilon of the C++ `double` type,
`std::numeric_limits<double>::epsilon() = 2^-52`. -/
def DBL_EPSILON : ℚ := 1 / 2 ^ 52

/-- Clamp used on the DDG length scale:
`h = std::copysign(std::max(std::abs(h), epsilon), h)`. -/
def copysign_clamp (h : ℚ) : ℚ :=
  if 0 ≤ h then max h DBL_EPSILON else min h (-DBL_EPSILON)

/-- Solution value at a quadrature point: the source loop
`uL[ieq] += unkelL[ibasis, ieq] * biL[ibasis]`. -/
def qp_value {nb neq : ℕ} (unkel : Fin nb → Fin neq → ℚ) (bi : Fin nb → ℚ)
    (ieq : Fin neq) : ℚ :=
  ∑ ib, unkel ib ieq * bi ib

/-- Modelled from the spec: `dofspan::contract_mdspan` with the gradient basis,
`out[ieq, idim] = Σ_idof u[idof, ieq]·basis_vals[idof, idim]` (fespan.hpp is
not in the tree; §4.6 of the spec gives the contraction semantics). -/
def contract_grad {nb neq ndim : ℕ} (unkel : Fin nb → Fin neq → ℚ)
    (gradBi : Fin nb → Fin ndim → ℚ) (ieq : Fin neq) (idim : Fin ndim) : ℚ :=
  ∑ ib, unkel ib ieq * gradBi ib idim

/-- Modelled from the spec: `dofspan::contract_mdspan` with the Hessian basis,
`out[ieq, i, j] = Σ_idof u[idof, ieq]·basis_vals[idof, i, j]`. -/
def contract_hess {nb neq ndim : ℕ} (unkel : Fin nb → Fin neq → ℚ)
    (hessBi : Fin nb → Fin ndim → Fin ndim → ℚ) (ieq : Fin neq)
    (i j : Fin ndim) : ℚ :=
  ∑ ib, unkel ib ieq * hessBi ib i j

/-- `beta0` of the DDG gradient: `std::pow(order + 1, 2)`. -/
def ddg_beta0 (order : ℕ) : ℚ := ((order : ℚ) + 1) ^ 2

/-- `beta1` of the DDG gradient: `1 / std::max((T)(2*order*(order+1)), 1.0)`. -/
def ddg_beta1 (order : ℕ) : ℚ := 1 / max (2 * (order : ℚ) * ((order : ℚ) + 1)) 1

/-- Inputs of one quadrature point of `ConservationLawDDG::trace_integral`
(conservation_law.hpp lines 434-612) for an interior trace. -/
structure InteriorTraceQP (neq ndim nbL nbR : ℕ) where
  unkelL : Fin nbL → Fin neq → ℚ
  unkelR : Fin nbR → Fin neq → ℚ
  biL : Fin nbL → ℚ
  biR : Fin nbR → ℚ
  gradBiL : Fin nbL → Fin ndim → ℚ
  gradBiR : Fin nbR → Fin ndim → ℚ
  hessBiL : Fin nbL → Fin ndim → Fin ndim → ℚ
  hessBiR : Fin nbR → Fin ndim → Fin ndim → ℚ
  unit_normal : Fin ndim → ℚ
  phys_pt : Fin ndim → ℚ
  centroidL : Fin ndim → ℚ
  centroidR : Fin ndim → ℚ
  orderL : ℕ
  orderR : ℕ

namespace InteriorTraceQP

variable {neq ndim nbL nbR : ℕ}

/-- Raw DDG length scale of the interior branch (lines 520-526):
`h_ddg += unit_normal[idim]*((phys_pt-centroidL) + (centroidR-phys_pt))`. -/
def h_ddg_raw (qp : InteriorTraceQP neq ndim nbL nbR) : ℚ :=
  ∑ idim, qp.unit_normal idim *
    ((qp.phys_pt idim - qp.centroidL idim) + (qp.centroidR idim - qp.phys_pt idim))

/-- DDG length scale after the source's epsilon clamp (line 527). -/
def h_ddg (qp : InteriorTraceQP neq ndim nbL nbR) : ℚ :=
  copysign_clamp qp.h_ddg_raw

/-- Left trace value `uL` at the quadrature point. -/
def uL (qp : InteriorTraceQP neq ndim nbL nbR) : Fin neq → ℚ :=
  qp_value qp.unkelL qp.biL

/-- Right trace value `uR` at the quadrature point. -/
def uR (qp : InteriorTraceQP neq ndim nbL nbR) : Fin neq → ℚ :=
  qp_value qp.unkelR qp.biR

/-- `grad_ddg` of the interior branch of `trace_integral` (lines 540-554),
translated statement by statement from the source. -/
def grad_ddg (interior_penalty : Bool) (qp : InteriorTraceQP neq ndim nbL nbR)
    (ieq : Fin neq) (idim : Fin ndim) : ℚ :=
  let order : ℕ := max qp.orderL qp.orderR
  let beta0 : ℚ := ddg_beta0 order
  let beta1 : ℚ := if interior_penalty then 0 else ddg_beta1 order
  let jumpu : ℚ := qp.uR ieq - qp.uL ieq
  let hessTerm : ℚ := ∑ jdim,
    (contract_hess qp.unkelR qp.hessBiR ieq jdim idim
      - contract_hess qp.unkelL qp.hessBiL ieq jdim idim) * qp.unit_normal jdim
  beta0 * jumpu / qp.h_ddg * qp.unit_normal idim
    + 1 / 2 * (contract_grad qp.unkelL qp.gradBiL ieq idim
      + contract_grad qp.unkelR qp.gradBiR ieq idim)
    + beta1 * qp.h_ddg * hessTerm

/-- Claimed DDG single-valued gradient, written from the words of the spec:
`(∇u)_Γ = β0·(uR−uL)/h_DDG·n + ½(∇uL+∇uR) + β1·h_DDG·((HessuR−HessuL)·n)` with
`β0 = (p+1)²`, `β1 = 1/max(2p(p+1),1)`, `p = max(p_L,p_R)`,
`h_DDG = n·((x_Γ−c_L)+(c_R−x_Γ))` (no clamp), and `β1 := 0` in
interior-penalty mode. -/
def grad_ddg_spec (interior_penalty : Bool) (qp : InteriorTraceQP neq ndim nbL nbR)
    (ieq : Fin neq) (idim : Fin ndim) : ℚ :=
  let p : ℕ := max qp.orderL qp.orderR
  let beta0 : ℚ := ((p : ℚ) + 1) ^ 2
  let beta1 : ℚ := if interior_penalty then 0
    else 1 / max (2 * (p : ℚ) * ((p : ℚ) + 1)) 1
  beta0 * (qp.uR ieq - qp.uL ieq) / qp.h_ddg_raw * qp.unit_normal idim
    + 1 / 2 * (contract_grad qp.unkelL qp.gradBiL ieq idim
      + contract_grad qp.unkelR qp.gradBiR ieq idim)
    + beta1 * qp.h_ddg_raw * (∑ jdim,
        (contract_hess qp.unkelR qp.hessBiR ieq jdim idim
          - contract_hess qp.unkelL qp.hessBiL ieq jdim idim) * qp.unit_normal jdim)

end InteriorTraceQP

/-- Inputs of one quadrature point of the `SPACETIME_PAST` branch of
`ConservationLawDDG::boundaryIntegral` (conservation_law.hpp lines 832-969).
`unkelR` is the coefficient argument passed to `boundaryIntegral`; `unkel_past`
is the element span extracted from the past time-slab solution vector
(`extract_elspan(trace_past.elR.elidx, spacetime_info.u_past, unkel_past)`).
`biR`, `gradBiR`, `hessBiR` are the right-side basis evaluations used by the
branch. -/
structure SpacetimePastQP (neq ndim nbL nbR : ℕ) where
  unkelL : Fin nbL → Fin neq → ℚ
  unkelR : Fin nbR → Fin neq → ℚ
  unkel_past : Fin nbR → Fin neq → ℚ
  biL : Fin nbL → ℚ
  biR : Fin nbR → ℚ
  gradBiL : Fin nbL → Fin ndim → ℚ
  gradBiR : Fin nbR → Fin ndim → ℚ
  hessBiL : Fin nbL → Fin ndim → Fin ndim → ℚ
  hessBiR : Fin nbR → Fin ndim → Fin ndim → ℚ
  unit_normal : Fin ndim → ℚ
  phys_pt : Fin ndim → ℚ
  centroidL : Fin ndim → ℚ
  orderL : ℕ
  orderR : ℕ

namespace SpacetimePastQP

variable {neq ndim nbL nbR : ℕ}

/-- Raw DDG length scale of the spacetime-past branch (lines 913-918):
`h_ddg += unit_normal[idim] * (2*(phys_pt[idim] - centroidL[idim]))`. -/
def h_ddg_raw (qp : SpacetimePastQP neq ndim nbL nbR) : ℚ :=
  ∑ idim, qp.unit_normal idim * (2 * (qp.phys_pt idim - qp.centroidL idim))

/-- Right state of the spacetime-past branch (line 896): contracted from the
past-slab coefficients `unkel_past`. -/
def uR (qp : SpacetimePastQP neq ndim nbL nbR) : Fin neq → ℚ :=
  qp_value qp.unkel_past qp.biR

/-- `grad_ddg` of the spacetime-past branch (lines 899-947), translated
statement by statement: note that `graduR` and `hessuR` are contracted from
`unkelR` (lines 901 and 903) while `uR` comes from `unkel_past`. -/
def grad_ddg (interior_penalty : Bool) (qp : SpacetimePastQP neq ndim nbL nbR)
    (ieq : Fin neq) (idim : Fin ndim) : ℚ :=
  let order : ℕ := max qp.orderL qp.orderR
  let beta0 : ℚ := ddg_beta0 order
  let beta1 : ℚ := if interior_penalty then 0 else ddg_beta1 order
  let jumpu : ℚ := qp.uR ieq - qp_value qp.unkelL qp.biL ieq
  let h : ℚ := copysign_clamp qp.h_ddg_raw
  let hessTerm : ℚ := ∑ jdim,
    (contract_hess qp.unkelR qp.hessBiR ieq jdim idim
      - contract_hess qp.unkelL qp.hessBiL ieq jdim idim) * qp.unit_normal jdim
  beta0 * jumpu / h * qp.unit_normal idim
    + 1 / 2 * (contract_grad qp.unkelL qp.gradBiL ieq idim
      + contract_grad qp.unkelR qp.gradBiR ieq idim)
    + beta1 * h * hessTerm

/-- Claimed spacetime-past DDG gradient, written from the words of claim C2:
`uR`, `graduR` and `hessuR` are all drawn from the past time-slab's solution
vector (`unkel_past`), and `h_DDG = 2·n·(x_Γ−c_L)`. -/
def grad_ddg_spec (interior_penalty : Bool) (qp : SpacetimePastQP neq ndim nbL nbR)
    (ieq : Fin neq) (idim : Fin ndim) : ℚ :=
  let p : ℕ := max qp.orderL qp.orderR
  let beta0 : ℚ := ((p : ℚ) + 1) ^ 2
  let beta1 : ℚ := if interior_penalty then 0
    else 1 / max (2 * (p : ℚ) * ((p : ℚ) + 1)) 1
  beta0 * (qp.uR ieq - qp_value qp.unkelL qp.biL ieq) / qp.h_ddg_raw
      * qp.unit_normal idim
    + 1 / 2 * (contract_grad qp.unkelL qp.gradBiL ieq idim
      + contract_grad qp.unkel_past qp.gradBiR ieq idim)
    + beta1 * qp.h_ddg_raw * (∑ jdim,
        (contract_hess qp.unkel_past qp.hessBiR ieq jdim idim
          - contract_hess qp.unkelL qp.hessBiL ieq jdim idim) * qp.unit_normal jdim)

/-- Amended spacetime-past DDG gradient: `uR` is drawn from the past solution
vector, but `graduR` and `hessuR` are contracted from the current-slab
coefficient argument `unkelR`; `h_DDG = 2·n·(x_Γ−c_L)`. -/
def grad_ddg_amended (interior_penalty : Bool) (qp : SpacetimePastQP neq ndim nbL nbR)
    (ieq : Fin neq) (idim : Fin ndim) : ℚ :=
  let p : ℕ := max qp.orderL qp.orderR
  let beta0 : ℚ := ((p : ℚ) + 1) ^ 2
  let beta1 : ℚ := if interior_penalty then 0
    else 1 / max (2 * (p : ℚ) * ((p : ℚ) + 1)) 1
  beta0 * (qp.uR ieq - qp_value qp.unkelL qp.biL ieq) / qp.h_ddg_raw
      * qp.unit_normal idim
    + 1 / 2 * (contract_grad qp.unkelL qp.gradBiL ieq idim
      + contract_grad qp.unkelR qp.gradBiR ieq idim)
    + beta1 * qp.h_ddg_raw * (∑ jdim,
        (contract_hess qp.unkelR qp.hessBiR ieq jdim idim
          - contract_hess qp.unkelL qp.hessBiL ieq jdim idim) * qp.unit_normal jdim)

end SpacetimePastQP

/-- Concrete spacetime-past quadrature point on which the current-slab
coefficients (`unkelR = 1`) and the past-slab coefficients (`unkel_past = 0`)
disagree, so that the gradient actually contracted differs from the one the
claim describes. -/
def stQP : SpacetimePastQP 1 1 1 1 where
  unkelL := fun _ _ => 0
  unkelR := fun _ _ => 1
  unkel_past := fun _ _ => 0
  biL := fun _ => 1
  biR := fun _ => 1
  gradBiL := fun _ _ => 0
  gradBiR := fun _ _ => 1
  hessBiL := fun _ _ _ => 0
  hessBiR := fun _ _ _ => 0
  unit_normal := fun _ => 1
  phys_pt := fun _ => 1
  centroidL := fun _ => 0
  orderL := 1
  orderR := 1

/-- Inputs of one quadrature point of the `DIRICHLET` branch of
`ConservationLawDDG::boundaryIntegral` (conservation_law.hpp lines 664-784).
`dirichlet_g` is the configured Dirichlet callback
`dirichlet_callbacks[face->bcflag]`, evaluated by the source at the physical
point of the quadrature point. -/
structure DirichletQP (neq ndim nbL : ℕ) where
  unkelL : Fin nbL → Fin neq → ℚ
  biL : Fin nbL → ℚ
  gradBiL : Fin nbL → Fin ndim → ℚ
  unit_normal : Fin ndim → ℚ
  phys_pt : Fin ndim → ℚ
  centroidL : Fin ndim → ℚ
  orderL : ℕ
  dirichlet_g : (Fin ndim → ℚ) → Fin neq → ℚ

namespace DirichletQP

variable {neq ndim nbL : ℕ}

/-- Exterior state of the Dirichlet branch (lines 699-700): the Dirichlet
callback value at the physical point. -/
def dirichlet_vals (qp : DirichletQP neq ndim nbL) : Fin neq → ℚ :=
  qp.dirichlet_g qp.phys_pt

/-- Raw DDG length scale of the Dirichlet branch (lines 707-712): the sum of
the component-wise absolute products
`h_ddg += std::abs(unit_normal[idim] * (phys_pt[idim] - centroidL[idim]))`. -/
def h_ddg_raw (qp : DirichletQP neq ndim nbL) : ℚ :=
  ∑ idim, |qp.unit_normal idim * (qp.phys_pt idim - qp.centroidL idim)|

/-- `grad_ddg` of the Dirichlet branch (lines 713-730), translated statement by
statement (`order` is the left order only; there is no Hessian term). -/
def grad_ddg (qp : DirichletQP neq ndim nbL) (ieq : Fin neq) (idim : Fin ndim) : ℚ :=
  let beta0 : ℚ := ddg_beta0 qp.orderL
  let h : ℚ := copysign_clamp qp.h_ddg_raw
  let jumpu : ℚ := qp.dirichlet_vals ieq - qp_value qp.unkelL qp.biL ieq
  beta0 * jumpu / h * qp.unit_normal idim + contract_grad qp.unkelL qp.gradBiL ieq idim

/-- Claimed Dirichlet DDG gradient, written from the words of claim C3:
`h_DDG = |n·(x_Γ−c_L)|` (the absolute value of the dot product), and
`(∇u)_Γ = β0·(uR−uL)/h_DDG·n + ∇uL` with `uR = g(x_Γ)`. -/
def grad_ddg_spec (qp : DirichletQP neq ndim nbL) (ieq : Fin neq) (idim : Fin ndim) : ℚ :=
  let beta0 : ℚ := ((qp.orderL : ℚ) + 1) ^ 2
  let h : ℚ := |∑ i, qp.unit_normal i * (qp.phys_pt i - qp.centroidL i)|
  beta0 * (qp.dirichlet_vals ieq - qp_value qp.unkelL qp.biL ieq) / h
      * qp.unit_normal idim
    + contract_grad qp.unkelL qp.gradBiL ieq idim

/-- Amended Dirichlet DDG gradient: the length scale is the sum of the
component-wise absolute products `Σ_i |n_i·(x_Γ−c_L)_i|`, and
`(∇u)_Γ = β0·(uR−uL)/h_DDG·n + ∇uL` with `uR = g(x_Γ)`. -/
def grad_ddg_amended (qp : DirichletQP neq ndim nbL) (ieq : Fin neq) (idim : Fin ndim) : ℚ :=
  let beta0 : ℚ := ((qp.orderL : ℚ) + 1) ^ 2
  let h : ℚ := ∑ i, |qp.unit_normal i * (qp.phys_pt i - qp.centroidL i)|
  beta0 * (qp.dirichlet_vals ieq - qp_value qp.unkelL qp.biL ieq) / h
      * qp.unit_normal idim
    + contract_grad qp.unkelL qp.gradBiL ieq idim

end DirichletQP

/-- Concrete Dirichlet quadrature point in two dimensions with unit normal
`(3/5, −4/5)` and offset `x_Γ − c_L = (1, 1)`: the sum of component-wise
absolute products is `7/5` while the absolute dot product is `1/5`. -/
def dirQP : DirichletQP 1 2 1 where
  unkelL := fun _ _ => 0
  biL := fun _ => 1
  gradBiL := fun _ _ => 0
  unit_normal := fun i => if i = 0 then 3 / 5 else -(4 / 5)
  phys_pt := fun _ => 1
  centroidL := fun _ => 0
  orderL := 0
  dirichlet_g := fun _ _ => 1

/-- Per-quadrature-point geometric and basis data of
`ConservationLawDDG::interface_conservation` (conservation_law.hpp
lines 1178-1288): trace-basis values `bitrace`, element basis values and
physical gradients on both sides, unit normal, quadrature weight and
Riemannian root determinant. -/
structure ICQP (neq ndim nbL nbR nbtr : ℕ) where
  biL : Fin nbL → ℚ
  biR : Fin nbR → ℚ
  gradBiL : Fin nbL → Fin ndim → ℚ
  gradBiR : Fin nbR → Fin ndim → ℚ
  bitrace : Fin nbtr → ℚ
  unit_normal : Fin ndim → ℚ
  weight : ℚ
  sqrtg : ℚ

/-- Whole-trace input of `interface_conservation` for an interior trace: the
two coefficient spans, the polynomial orders of the two sides, the physical
flux `F(u, ∇u)`, and the quadrature-point list. -/
structure ICInput (neq ndim nbL nbR nbtr : ℕ) where
  unkelL : Fin nbL → Fin neq → ℚ
  unkelR : Fin nbR → Fin neq → ℚ
  orderL : ℕ
  orderR : ℕ
  phys_flux : (Fin neq → ℚ) → (Fin neq → Fin ndim → ℚ) → Fin neq → Fin ndim → ℚ
  qps : List (ICQP neq ndim nbL nbR nbtr)

namespace ICInput

variable {neq ndim nbL nbR nbtr : ℕ}

/-- One quadrature-point iteration of the `interface_conservation` loop for an
interior face (bctype `INTERIOR`, so the boundary switch is not taken): both
gradient buffers are zeroed when both sides are order 1 (the `HACK: disable
diffusion IC for linear polynomials` of lines 1262-1266), the normal flux jump
is formed, and `res[itest, ieq] -= jumpflux[ieq]*sqrtg*weight*bitrace[itest]`
(line 1284). -/
def ic_qp_update (inp : ICInput neq ndim nbL nbR nbtr)
    (res : Fin nbtr → Fin neq → ℚ) (qp : ICQP neq ndim nbL nbR nbtr) :
    Fin nbtr → Fin neq → ℚ :=
  let uL := qp_value inp.unkelL qp.biL
  let uR := qp_value inp.unkelR qp.biR
  let graduL : Fin neq → Fin ndim → ℚ :=
    if inp.orderL = 1 ∧ inp.orderR = 1 then fun _ _ => 0
    else contract_grad inp.unkelL qp.gradBiL
  let graduR : Fin neq → Fin ndim → ℚ :=
    if inp.orderL = 1 ∧ inp.orderR = 1 then fun _ _ => 0
    else contract_grad inp.unkelR qp.gradBiR
  let fluxL := inp.phys_flux uL graduL
  let fluxR := inp.phys_flux uR graduR
  let jumpflux : Fin neq → ℚ := fun ieq =>
    (∑ k, fluxR ieq k * qp.unit_normal k) - (∑ k, fluxL ieq k * qp.unit_normal k)
  fun itest ieq =>
    res itest ieq - jumpflux ieq * qp.sqrtg * qp.weight * qp.bitrace itest

/-- `interface_conservation` on an interior trace: the quadrature loop
accumulating into the trace-basis residual span. -/
def interface_conservation (inp : ICInput neq ndim nbL nbR nbtr)
    (res0 : Fin nbtr → Fin neq → ℚ) : Fin nbtr → Fin neq → ℚ :=
  inp.qps.foldl inp.ic_qp_update res0

/-- Claimed accumulation, written from the words of claim C4: the residual
gains `r_IC(Γ) = ∫_Γ (F(uR,∇uR)·n − F(uL,∇uL)·n)·φ_trace dS`, evaluated by
quadrature with the Riemannian root determinant as the surface measure and
with the plain contracted gradients. -/
def interface_conservation_spec (inp : ICInput neq ndim nbL nbR nbtr)
    (res0 : Fin nbtr → Fin neq → ℚ) : Fin nbtr → Fin neq → ℚ :=
  fun itest ieq => res0 itest ieq +
    (inp.qps.map (fun qp =>
      ((∑ k, inp.phys_flux (qp_value inp.unkelR qp.biR)
          (contract_grad inp.unkelR qp.gradBiR) ieq k * qp.unit_normal k)
        - (∑ k, inp.phys_flux (qp_value inp.unkelL qp.biL)
            (contract_grad inp.unkelL qp.gradBiL) ieq k * qp.unit_normal k))
        * qp.bitrace itest * qp.weight * qp.sqrtg)).sum

/-- Amended accumulation: the source subtracts the quadrature sum of the normal
flux jump times the trace basis function (`res -= …`), and when both sides are
order 1 the gradient arguments of the physical flux are zeroed (the documented
HACK). -/
def interface_conservation_amended (inp : ICInput neq ndim nbL nbR nbtr)
    (res0 : Fin nbtr → Fin neq → ℚ) : Fin nbtr → Fin neq → ℚ :=
  fun itest ieq => res0 itest ieq -
    (inp.qps.map (fun qp =>
      ((∑ k, inp.phys_flux (qp_value inp.unkelR qp.biR)
          (if inp.orderL = 1 ∧ inp.orderR = 1 then fun _ _ => 0
            else contract_grad inp.unkelR qp.gradBiR) ieq k * qp.unit_normal k)
        - (∑ k, inp.phys_flux (qp_value inp.unkelL qp.biL)
            (if inp.orderL = 1 ∧ inp.orderR = 1 then fun _ _ => 0
              else contract_grad inp.unkelL qp.gradBiL) ieq k * qp.unit_normal k))
        * qp.bitrace itest * qp.weight * qp.sqrtg)).sum

end ICInput

/-- Concrete interior-trace input for `interface_conservation` with both sides
at order 1 and a physical flux that depends on the gradient
(`F(u,∇u) = u + ∇u`): the left state is zero, the right coefficients are 1
with unit basis value and unit basis gradient. -/
def icInput : ICInput 1 1 1 1 1 where
  unkelL := fun _ _ => 0
  unkelR := fun _ _ => 1
  orderL := 1
  orderR := 1
  phys_flux := fun u gradu ieq idim => u ieq + gradu ieq idim
  qps := [{ biL := fun _ => 1
            biR := fun _ => 1
            gradBiL := fun _ _ => 0
            gradBiR := fun _ _ => 1
            bitrace := fun _ => 1
            unit_normal := fun _ => 1
            weight := 1
            sqrtg := 1 }]

/-! ## Gauss-Newton subproblem regularization (corrigan_lm.hpp)

`CorriganLM::solve` (lines 416-459) forms the diagonal regularizer of the
explicitly assembled normal matrix; `impl::gn_subproblem` (lines 66-107) is the
matrix-free `MATOP_MULT` callback.  Column norms of the Jacobian are computed
by `MatGetColumnNorms(jac, NORM_2, …)` identically on both paths and are taken
as an input vector here.  Row and column indices are flat naturals as in the
source's raw array addressing.
-/

/-- One finite element as seen by the regularization loop: its mesh node
indices (`el.geo_el->nodes_span()`) and the transform Jacobian determinants at
its quadrature points. -/
structure LMElement where
  nodes : List ℕ
  qp_dets : List ℚ

/-- Running minimum of the quadrature-point determinants (corrigan_lm.hpp
lines 440-445): `detJ = 1.0` then `detJ = min(|detJ|, |determinant(J)|)` per
quadrature point. -/
def el_min_detJ (el : LMElement) : ℚ :=
  el.qp_dets.foldl (fun acc d => min |acc| |d|) 1

/-- Determinant floor of line 446: `detJ = max(1e-8, |detJ|)`. -/
def el_detJ (el : LMElement) : ℚ :=
  max (1 / 10 ^ 8) |el_min_detJ el|

/-- Claimed per-element determinant of claim C5: `max(1e-8, min_qp |detJ_e|)`,
with no initial 1.0 in the running minimum. -/
def spec_el_detJ (el : LMElement) : ℚ :=
  max (1 / 10 ^ 8) (((el.qp_dets.map (fun d => |d|)).min?).getD 1)

/-- Solver-side bookkeeping of `CorriganLM::solve`: system sizes, the
regularization parameters, the element list, and the `geo_dof_map` fields
`selected_nodes.size()` (`n_selected`), `inv_selected_nodes`, the per-dof
component count `geo_layout.nv`, and the flat layout offset
`geo_layout[geo_dof, iv]`. -/
structure LMConfig where
  Nu : ℕ
  Ng : ℕ
  lambda_u : ℚ
  lambda_b : ℚ
  lambda_lag : ℚ
  elements : List LMElement
  n_selected : ℕ
  inv_selected_nodes : ℕ → ℕ
  nv : ℕ → ℕ
  geo_index : ℕ → ℕ → ℕ

/-- Pointwise increment of a flat array: `lambda_view[j] += δ`. -/
def addAt (f : ℕ → ℚ) (j : ℕ) (δ : ℚ) : ℕ → ℚ :=
  fun i => if i = j then f i + δ else f i

namespace LMConfig

/-- Column-scaled part of the explicit regularizer (corrigan_lm.hpp
lines 428-435): the vector starts as the Jacobian column norms, solution rows
are multiplied by `lambda_u`, geometry rows become
`max(lambda_b, colnorm*lambda_b)`. -/
def lambda_base (cfg : LMConfig) (colnorm : ℕ → ℚ) : ℕ → ℚ := fun i =>
  if i < cfg.Nu then colnorm i * cfg.lambda_u
  else if i < cfg.Nu + cfg.Ng then max cfg.lambda_b (colnorm i * cfg.lambda_b)
  else colnorm i

/-- Per-element addition loop of the explicit regularizer (lines 437-456):
every node of the element that is a selected geometry dof receives
`lambda_lag / detJ` on each of its layout components. -/
def lambda_el_add (cfg : LMConfig) (lam : ℕ → ℚ) (el : LMElement) : ℕ → ℚ :=
  el.nodes.foldl (fun lam inode =>
    if cfg.inv_selected_nodes inode ≠ cfg.n_selected then
      (List.range (cfg.nv (cfg.inv_selected_nodes inode))).foldl
        (fun lam iv =>
          addAt lam (cfg.Nu + cfg.geo_index (cfg.inv_selected_nodes inode) iv)
            (cfg.lambda_lag / el_detJ el))
        lam
    else lam) lam

/-- Diagonal regularizer of the explicitly formed subproblem
(`MatDiagonalSet(subproblem_mat, lambda, ADD_VALUES)` receives this vector). -/
def lambda_explicit (cfg : LMConfig) (colnorm : ℕ → ℚ) : ℕ → ℚ :=
  cfg.elements.foldl cfg.lambda_el_add (cfg.lambda_base colnorm)

/-- Predicate underlying the claimed regularizer: mesh node `inode` is a
selected geometry dof one of whose layout components is the flat row `i`. -/
def node_targets (cfg : LMConfig) (inode i : ℕ) : Bool :=
  (cfg.inv_selected_nodes inode != cfg.n_selected) &&
    (List.range (cfg.nv (cfg.inv_selected_nodes inode))).any
      (fun iv => cfg.Nu + cfg.geo_index (cfg.inv_selected_nodes inode) iv == i)

/-- Claimed diagonal regularizer, written from the words of claim C5:
`Λ_ii = λ_u·‖J_{:,i}‖` on solution rows and
`Λ_ii = max(λ_b, λ_b·‖J_{:,i}‖) + Σ_{e∋node(i)} λ_lag/max(1e-8, min_qp |detJ_e|)`
on geometry rows. -/
def lambda_claim (cfg : LMConfig) (colnorm : ℕ → ℚ) : ℕ → ℚ := fun i =>
  if i < cfg.Nu then cfg.lambda_u * colnorm i
  else max cfg.lambda_b (cfg.lambda_b * colnorm i) +
    ((cfg.elements.filter (fun el => el.nodes.any (fun inode => cfg.node_targets inode i))).map
      (fun el => cfg.lambda_lag / spec_el_detJ el)).sum

/-- Number of additions node `inode` contributes to flat row `i` in the
explicit regularizer loop of one element. -/
def nodeHits (cfg : LMConfig) (inode i : ℕ) : ℕ :=
  if cfg.inv_selected_nodes inode ≠ cfg.n_selected then
    ((List.range (cfg.nv (cfg.inv_selected_nodes inode))).filter
      (fun iv => cfg.Nu + cfg.geo_index (cfg.inv_selected_nodes inode) iv == i)).length
  else 0

/-- Number of additions element `el` makes to flat row `i` in the explicit
regularizer loop (one per occurrence of a selected node and per matching
layout component). -/
def elHits (cfg : LMConfig) (el : LMElement) (i : ℕ) : ℕ :=
  (el.nodes.map (fun inode => cfg.nodeHits inode i)).sum

end LMConfig

/-- Matrix-free subproblem product `impl::gn_subproblem` (corrigan_lm.hpp
lines 66-107): `y = Jᵀ(Jx) + lambdax` where
`lambdax[i] = x[i]·λ_u·colnorm[i]` on solution rows and
`lambdax[i] = x[i]·max(λ_b, λ_b·colnorm[i])` on geometry rows — no
element-determinant term appears on this path. -/
def gn_subproblem {nr nc : ℕ} (J : Fin nr → Fin nc → ℚ) (npde : ℕ)
    (lambda_u lambda_b : ℚ) (colnorm : Fin nc → ℚ) (x : Fin nc → ℚ) :
    Fin nc → ℚ :=
  let Jx : Fin nr → ℚ := fun r => ∑ c, J r c * x c
  let JtJx : Fin nc → ℚ := fun c => ∑ r, J r c * Jx r
  let lambdax : Fin nc → ℚ := fun i =>
    if (i : ℕ) < npde then x i * lambda_u * colnorm i
    else x i * max lambda_b (lambda_b * colnorm i)
  fun i => JtJx i + lambdax i

/-- Concrete solver configuration: one solution row, one geometry row, one
element containing the selected node 5 whose only quadrature determinant is 4
(larger than the 1.0 the running minimum starts from). -/
def lmCfg : LMConfig where
  Nu := 1
  Ng := 1
  lambda_u := 1 / 10 ^ 7
  lambda_b := 1 / 100
  lambda_lag := 1
  elements := [{ nodes := [5], qp_dets := [4] }]
  n_selected := 1
  inv_selected_nodes := fun inode => if inode = 5 then 0 else 1
  nv := fun _ => 1
  geo_index := fun _ _ => 0

/-- Concrete 2×2 Jacobian with columns `(3,4)` and `(0,1)`, whose exact column
2-norms are 5 and 1. -/
def lmJ : Fin 2 → Fin 2 → ℚ :=
  fun r c => if (r : ℕ) = 0 then (if (c : ℕ) = 0 then 3 else 0)
    else (if (c : ℕ) = 0 then 4 else 1)

/-- Exact column 2-norms of `lmJ`. -/
def lmColnorm : ℕ → ℚ := fun i => if i = 0 then 5 else 1

/-- Concrete input vector: the unit vector of the geometry row. -/
def lmX : Fin 2 → ℚ := fun i => if (i : ℕ) = 0 then 0 else 1

/-! ## Burgers test mesh construction (mesh_utils.hpp)

`burgers_linear_mesh(initial = true)` builds 12 nodes and 6 bilinear quad
elements by hand, discovers the interior faces with `find_interior_faces`
(mesh_utils.hpp lines 20-68), and then appends 10 boundary faces.  The face
factory `make_face` and `boundary_face_info` (face_utils.hpp) are not in the
tree and are modelled from the spec; the 2D linear quad face topology comes
from the spec's reference-domain description.
-/

/-- Modelled from the spec: the four faces of the reference quad `[-1,1]²`
with nodes in lexicographic order `[n00, n01, n10, n11]` (last dimension
fastest); each face fixes one reference coordinate at ±1. -/
def quad_face_vertices (elnodes : List ℕ) (face_nr : ℕ) : List ℕ :=
  match face_nr with
  | 0 => [elnodes.getD 0 0, elnodes.getD 1 0]
  | 1 => [elnodes.getD 2 0, elnodes.getD 3 0]
  | 2 => [elnodes.getD 0 0, elnodes.getD 2 0]
  | _ => [elnodes.getD 1 0, elnodes.getD 3 0]

/-- Vertex sets are compared up to orientation: equality as sets. -/
def same_vertex_set (a b : List ℕ) : Bool :=
  a.all (fun v => b.contains v) && b.all (fun v => a.contains v)

/-- Face record: left and right element indices and the boundary condition
type (`INTERIOR` for interior faces). -/
structure MeshFace where
  elemL : ℕ
  elemR : ℕ
  bctype : BOUNDARY_CONDITIONS

/-- Modelled from the spec: `make_face(e1, e2)` succeeds iff one face of `e1`
and one face of `e2` have identical vertex sets (up to orientation). -/
def make_face (ielem jelem : ℕ) (e1 e2 : List ℕ) : Option MeshFace :=
  if (List.range 4).any (fun f1 => (List.range 4).any (fun f2 =>
      same_vertex_set (quad_face_vertices e1 f1) (quad_face_vertices e2 f2)))
  then some ⟨ielem, jelem, .INTERIOR⟩ else none

/-- Elements surrounding a node (mesh_utils.hpp lines 26-39): indices of the
elements containing the node, sorted and without duplicates (pushing in
element order then sort+unique yields the ordered filter). -/
def elsup (elements : List (List ℕ)) (inode : ℕ) : List ℕ :=
  (List.range elements.length).filter (fun ie => (elements.getD ie []).contains inode)

/-- Inner loop of `find_interior_faces` over the candidate neighbor elements
(mesh_utils.hpp lines 48-65): skip self and already-connected elements, try
`make_face`, and break out of this loop once `max_faces` connections exist. -/
def ifaces_jloop (elements : List (List ℕ)) (max_faces ielem : ℕ) :
    List ℕ → List MeshFace × List ℕ → List MeshFace × List ℕ
  | [], st => st
  | jelem :: rest, (faces, connected) =>
    if ielem = jelem ∨ jelem ∈ connected then
      ifaces_jloop elements max_faces ielem rest (faces, connected)
    else
      match make_face ielem jelem (elements.getD ielem []) (elements.getD jelem []) with
      | some fc =>
          if (connected ++ [jelem]).length = max_faces then
            (faces ++ [fc], connected ++ [jelem])
          else ifaces_jloop elements max_faces ielem rest (faces ++ [fc], connected ++ [jelem])
      | none => ifaces_jloop elements max_faces ielem rest (faces, connected)

/-- Node loop of `find_interior_faces` for one element: for each node, walk the
elements surrounding it starting from the `lower_bound` at `ielem` (the
surrounding-element lists are sorted). -/
def ifaces_node_loop (elements : List (List ℕ)) (max_faces ielem : ℕ)
    (elnodes : List ℕ) (st : List MeshFace × List ℕ) : List MeshFace × List ℕ :=
  elnodes.foldl
    (fun st inode =>
      ifaces_jloop elements max_faces ielem
        ((elsup elements inode).dropWhile (fun j => decide (j < ielem))) st)
    st

/-- `find_interior_faces` (mesh_utils.hpp lines 20-68) for a mesh of 2D linear
quads (`n_faces = 4`): the discovered interior faces in construction order. -/
def find_interior_faces (elements : List (List ℕ)) : List MeshFace :=
  (List.range elements.length).foldl
    (fun faces ielem =>
      (ifaces_node_loop elements 4 ielem (elements.getD ielem []) (faces, [])).1)
    []

/-- Modelled from the spec: `boundary_face_info(nodes, el)` succeeds iff some
face of the element has exactly the given vertex set, returning its face
number. -/
def boundary_face_info (face_nodes : List ℕ) (el : List ℕ) : Option ℕ :=
  (List.range 4).find? (fun f => same_vertex_set (quad_face_vertices el f) face_nodes)

/-- The `add_bdy_face` lambda of `burgers_linear_mesh` (mesh_utils.hpp
lines 201-218): a boundary face is appended iff `boundary_face_info`
recognizes the node set on the named element. -/
def add_bdy_face (elements : List (List ℕ)) (faces : List MeshFace)
    (entry : ℕ × List ℕ × BOUNDARY_CONDITIONS) : List MeshFace :=
  match boundary_face_info entry.2.1 (elements.getD entry.1 []) with
  | some _ => faces ++ [⟨entry.1, entry.1, entry.2.2⟩]
  | none => faces

/-- Node coordinates of `burgers_linear_mesh(initial = true)` (mesh_utils.hpp
lines 131-144). -/
def burgers_nodes : List (ℚ × ℚ) :=
  [(0, 0), (1/4, 0), (3/4, 0), (1, 0),
   (0, 1/4), (1/4, 1/4), (3/4, 1/4), (1, 1/4),
   (0, 1/2), (1/4, 1/2), (3/4, 1/2), (1, 1/2)]

/-- Element connectivities of `burgers_linear_mesh` (lines 162-192). -/
def burgers_elements : List (List ℕ) :=
  [[0, 4, 1, 5], [1, 5, 2, 6], [2, 6, 3, 7],
   [4, 8, 5, 9], [5, 9, 6, 10], [6, 10, 7, 11]]

/-- The 10 boundary-face requests of `burgers_linear_mesh` (lines 220-289):
7 Dirichlet faces and 3 spacetime-future faces. -/
def burgers_bdy_requests : List (ℕ × List ℕ × BOUNDARY_CONDITIONS) :=
  [(0, [0, 1], .DIRICHLET), (1, [1, 2], .DIRICHLET), (2, [2, 3], .DIRICHLET),
   (0, [0, 4], .DIRICHLET), (3, [4, 8], .DIRICHLET), (2, [3, 7], .DIRICHLET),
   (5, [7, 11], .DIRICHLET),
   (3, [8, 9], .SPACETIME_FUTURE), (4, [9, 10], .SPACETIME_FUTURE),
   (5, [10, 11], .SPACETIME_FUTURE)]

/-- Mesh record: nodes, elements, faces, and the frozen face ranges. -/
structure BurgersMesh where
  nodes : List (ℚ × ℚ)
  elements : List (List ℕ)
  faces : List MeshFace
  interiorFaceStart : ℕ
  interiorFaceEnd : ℕ
  bdyFaceStart : ℕ
  bdyFaceEnd : ℕ

/-- `burgers_linear_mesh(initial = true)` (mesh_utils.hpp lines 124-294):
build the hand-made mesh, find the interior faces, freeze the interior range,
append the boundary faces, freeze the boundary range. -/
def burgers_linear_mesh : BurgersMesh :=
  let elements := burgers_elements
  let interior := find_interior_faces elements
  let all_faces := burgers_bdy_requests.foldl (add_bdy_face elements) interior
  { nodes := burgers_nodes
    elements := elements
    faces := all_faces
    interiorFaceStart := 0
    interiorFaceEnd := interior.length
    bdyFaceStart := interior.length
    bdyFaceEnd := all_faces.length }

/-! ## 1D Lagrange interpolation and tensor-product basis
(lagrange_1d.hpp, tensor_product.hpp)

`UniformLagrangeInterpolation<T, Pn>::eval_all` evaluates the `Pn+1` Lagrange
interpolation polynomials on uniform nodes in `[-1,1]` in second barycentric
form with a bisector-chosen pivot; `QTypeProduct::fill_shp` assembles the
tensor-product shape functions from the per-axis 1D evaluations.
-/

/-- Interpolation nodes `xi_nodes` of lagrange_1d.hpp lines 26-41: the single
node 0 for `Pn = 0`, otherwise `ξ_0 = -1` and `ξ_{j+1} = ξ_j + 2/Pn`. -/
def xi_nodes (Pn : ℕ) : ℕ → ℚ
  | 0 => if Pn = 0 then 0 else -1
  | j + 1 => xi_nodes Pn j + 2 / Pn

/-- Barycentric weights `wj` of lagrange_1d.hpp lines 45-58:
`w_j = 1 / ∏_{k≠j} (ξ_j − ξ_k)`. -/
def wj (Pn : ℕ) (j : ℕ) : ℚ :=
  1 / ∏ k ∈ (Finset.range (Pn + 1)).erase j, (xi_nodes Pn j - xi_nodes Pn k)

/-- Pivot search loop of `eval_all` (lines 78-87): advance while
`ξ ≥ (ξ_k + ξ_{k+1})/2`, with the remaining fuel `Pn − k`. -/
def pivot_go (Pn : ℕ) (x : ℚ) : ℕ → ℕ → ℕ
  | k, 0 => k
  | k, fuel + 1 =>
      if (xi_nodes Pn k + xi_nodes Pn (k + 1)) / 2 ≤ x then pivot_go Pn x (k + 1) fuel
      else k

/-- Pivot (nearest-node) index of `eval_all`: the first `k < Pn` failing the
bisector test, else `Pn`. -/
def pivot (Pn : ℕ) (x : ℚ) : ℕ := pivot_go Pn x 0 Pn

/-- The product `lskip` of `eval_all` (lines 78-90): all factors `(ξ − ξ_i)`
skipping the pivot. -/
def lskip (Pn : ℕ) (x : ℚ) : ℚ :=
  ∏ i ∈ (Finset.range (Pn + 1)).erase (pivot Pn x), (x - xi_nodes Pn i)

/-- `UniformLagrangeInterpolation::eval_all` (lagrange_1d.hpp lines 65-105):
`Pn = 0` gives the constant 1; `Pn = 1` uses the closed forms
`N_0 = ½(1−ξ)`, `N_1 = 1 − N_0`; otherwise the second barycentric form
`N_j = lprod·w_j/(ξ−ξ_j)` off-pivot and `N_k = lskip·w_k` at the pivot, with
`lprod = lskip·(ξ−ξ_k)`. -/
def eval_all (Pn : ℕ) (x : ℚ) (j : ℕ) : ℚ :=
  if Pn = 0 then 1
  else if Pn = 1 then (if j = 0 then 1 / 2 * (1 - x) else 1 - 1 / 2 * (1 - x))
  else
    if j = pivot Pn x then lskip Pn x * wj Pn (pivot Pn x)
    else lskip Pn x * (x - xi_nodes Pn (pivot Pn x)) * wj Pn j / (x - xi_nodes Pn j)

/-- Lexicographic digit of a flat tensor-product index (tensor_product.hpp:
`stride[d] = nbasis_1d^(ndim-1-d)`, last dimension fastest). -/
def tp_digit (n ndim d i : ℕ) : ℕ := i / n ^ (ndim - 1 - d) % n

/-- Axis-by-axis fill of `QTypeProduct::fill_shp` (tensor_product.hpp
lines 421-475): dimension 0 broadcasts its 1D evaluations in blocks of
`n^(ndim-1)` (the fencepost), and each later dimension multiplies every entry
in place by its own 1D evaluation at that entry's digit. -/
def fill_dims (n ndim : ℕ) (ev : ℕ → ℕ → ℚ) : ℕ → ℕ → ℚ
  | 0, i => ev 0 (tp_digit n ndim 0 i)
  | d + 1, i => fill_dims n ndim ev d i * ev (d + 1) (tp_digit n ndim (d + 1) i)

/-- `QTypeProduct::fill_shp`: for `ndim = 0` the single entry is 1, otherwise
the axis fill runs through dimensions `0..ndim-1`. -/
def fill_shp (n ndim : ℕ) (ev : ℕ → ℕ → ℚ) (i : ℕ) : ℚ :=
  if ndim = 0 then 1 else fill_dims n ndim ev (ndim - 1) i

/-- Concrete interior-trace quadrature point exhibiting the epsilon clamp:
one equation, one dimension, one basis function per side, unit normal `1`,
`uL = 0`, `uR = 1`, and geometry placed so that the raw DDG length scale is
`2^-53` (half of machine epsilon). -/
def clampQP : InteriorTraceQP 1 1 1 1 where
  unkelL := fun _ _ => 0
  unkelR := fun _ _ => 1
  biL := fun _ => 1
  biR := fun _ => 1
  gradBiL := fun _ _ => 0
  gradBiR := fun _ _ => 0
  hessBiL := fun _ _ _ => 0
  hessBiR := fun _ _ _ => 0
  unit_normal := fun _ => 1
  phys_pt := fun _ => 0
  centroidL := fun _ => 0
  centroidR := fun _ => 1 / 2 ^ 53
  orderL := 0
  orderR := 0

/-- Concrete interior-trace quadrature point with a healthy length scale
(`h_ddg_raw = 1`), used to witness the amended interior DDG claim. -/
def healthyQP : InteriorTraceQP 1 1 1 1 where
  unkelL := fun _ _ => 0
  unkelR := fun _ _ => 1
  biL := fun _ => 1
  biR := fun _ => 1
  gradBiL := fun _ _ => 3
  gradBiR := fun _ _ => 5
  hessBiL := fun _ _ _ => 7
  hessBiR := fun _ _ _ => 2
  unit_normal := fun _ => 1
  phys_pt := fun _ => 1 / 2
  centroidL := fun _ => 0
  centroidR := fun _ => 1
  orderL := 1
  orderR := 2

end ICEicle

namespace ICEicle

/-! ### Theorems for face_info packing (claim C8) -/

/-- Counterexample for claim C8: the pack/unpack round trip fails for the face
number 2^23, because `face_nr*512 + orientation` wraps modulo 2^32 in the
`unsigned int` member: unpacking returns face number 0, not 2^23. -/
theorem face_info_roundtrip_overflow :
    face_nr_l (pack_face_info (2 ^ 23) 0) = 0 ∧ (2 ^ 23 : ℕ) ≠ 0 := by
  constructor
  · decide
  · decide

/-- Claim C8, amended: for `orientation < 512` and `face_nr < 2^23` (so that the
packed word fits in 32 bits), `face_info / FACE_INFO_MOD` recovers the face
number and `face_info % FACE_INFO_MOD` the orientation. -/
theorem face_info_roundtrip (f o : ℕ) (ho : o < 512) (hf : f < 2 ^ 23) :
    face_nr_l (pack_face_info f o) = f ∧ orientation_r (pack_face_info f o) = o := by
  have hlt : f * 512 + o < UINT_MOD := by
    have h1 : f * 512 + o < (f + 1) * 512 := by
      rw [add_mul, one_mul]
      omega
    have h2 : (f + 1) * 512 ≤ 2 ^ 23 * 512 := by
      exact Nat.mul_le_mul_right 512 (by omega)
    calc f * 512 + o < (f + 1) * 512 := h1
      _ ≤ 2 ^ 23 * 512 := h2
      _ = UINT_MOD := by decide
  have hpack : pack_face_info f o = f * 512 + o := Nat.mod_eq_of_lt hlt
  constructor
  · show (pack_face_info f o) / FACE_INFO_MOD = f
    rw [hpack]
    show (f * 512 + o) / 512 = f
    omega
  · show (pack_face_info f o) % FACE_INFO_MOD = o
    rw [hpack]
    show (f * 512 + o) % 512 = o
    omega

/-- Witness for the amended claim C8 at `face_nr = 7`, `orientation = 3`. -/
theorem face_info_roundtrip_witness :
    face_nr_l (pack_face_info 7 3) = 7 ∧ orientation_r (pack_face_info 7 3) = 3 :=
  face_info_roundtrip 7 3 (by decide) (by decide)

/-! ### Theorems for the interior DDG gradient (claim C1) -/

/-- Helper: the epsilon clamp is the identity on length scales of magnitude at
least machine epsilon. -/
theorem copysign_clamp_eq_self (h : ℚ) (hh : DBL_EPSILON ≤ |h|) :
    copysign_clamp h = h := by
  have heps : (0 : ℚ) < DBL_EPSILON := by norm_num [DBL_EPSILON]
  unfold copysign_clamp
  rcases le_or_lt 0 h with hpos | hneg
  · rw [if_pos hpos, max_eq_left]
    rwa [abs_of_nonneg hpos] at hh
  · rw [if_neg (not_le.mpr hneg), min_eq_left]
    rw [abs_of_neg (by linarith)] at hh
    linarith

/-- Counterexample for claim C1: at a quadrature point whose raw DDG length
scale is `2^-53`, the source clamps `h_DDG` up to machine epsilon `2^-52`
(`h_ddg = copysign(max(|h|,eps), h)`, conservation_law.hpp line 527), so the
computed gradient is half the value the claim's formula gives. -/
theorem interior_ddg_clamp_counterexample :
    InteriorTraceQP.grad_ddg false clampQP 0 0 ≠
      InteriorTraceQP.grad_ddg_spec false clampQP 0 0 := by
  simp only [InteriorTraceQP.grad_ddg, InteriorTraceQP.grad_ddg_spec,
    InteriorTraceQP.h_ddg, InteriorTraceQP.h_ddg_raw, InteriorTraceQP.uL,
    InteriorTraceQP.uR, qp_value, contract_grad, contract_hess, clampQP,
    copysign_clamp, ddg_beta0, ddg_beta1, DBL_EPSILON, Fin.sum_univ_one]
  norm_num

/-- Claim C1, amended: whenever the raw length scale
`n·((x_Γ−c_L)+(c_R−x_Γ))` has magnitude at least machine epsilon (so the
clamp of line 527 is inactive), the DDG single-valued gradient computed by
`trace_integral` equals
`β0·(uR−uL)/h_DDG·n + ½(∇uL+∇uR) + β1·h_DDG·((HessuR−HessuL)·n)` with
`β0 = (p+1)²`, `β1 = 1/max(2p(p+1),1)`, `p = max(p_L,p_R)`, and `β1 := 0` in
interior-penalty mode; in general the source uses
`copysign(max(|h_DDG|, ε), h_DDG)` in place of `h_DDG`. -/
theorem interior_ddg_grad_eq_spec {neq ndim nbL nbR : ℕ}
    (qp : InteriorTraceQP neq ndim nbL nbR) (interior_penalty : Bool)
    (hh : DBL_EPSILON ≤ |qp.h_ddg_raw|) :
    InteriorTraceQP.grad_ddg interior_penalty qp =
      InteriorTraceQP.grad_ddg_spec interior_penalty qp := by
  funext ieq idim
  simp only [InteriorTraceQP.grad_ddg, InteriorTraceQP.grad_ddg_spec,
    InteriorTraceQP.h_ddg, ddg_beta0, ddg_beta1,
    copysign_clamp_eq_self qp.h_ddg_raw hh]

/-- Witness for the amended claim C1: a concrete quadrature point with raw
length scale 1, where the source gradient and the spec formula agree. -/
theorem interior_ddg_grad_eq_spec_witness :
    DBL_EPSILON ≤ |InteriorTraceQP.h_ddg_raw healthyQP| ∧
      InteriorTraceQP.grad_ddg false healthyQP =
        InteriorTraceQP.grad_ddg_spec false healthyQP := by
  have hh : DBL_EPSILON ≤ |InteriorTraceQP.h_ddg_raw healthyQP| := by
    simp only [InteriorTraceQP.h_ddg_raw, healthyQP, Fin.sum_univ_one]
    norm_num [DBL_EPSILON]
  exact ⟨hh, interior_ddg_grad_eq_spec healthyQP false hh⟩

/-! ### Theorems for the spacetime-past DDG gradient (claim C2) -/

/-- Counterexample for claim C2: at a quadrature point where the current-slab
coefficients (`unkelR`) and the past-slab coefficients (`unkel_past`) differ,
the gradient computed by the `SPACETIME_PAST` branch is not the one the claim
describes, because `graduR` and `hessuR` are contracted from `unkelR`
(conservation_law.hpp lines 901, 903), not from the past solution vector. -/
theorem spacetime_past_counterexample :
    SpacetimePastQP.grad_ddg false stQP 0 0 ≠
      SpacetimePastQP.grad_ddg_spec false stQP 0 0 := by
  simp only [SpacetimePastQP.grad_ddg, SpacetimePastQP.grad_ddg_spec,
    SpacetimePastQP.h_ddg_raw, SpacetimePastQP.uR, qp_value, contract_grad,
    contract_hess, stQP, copysign_clamp, ddg_beta0, ddg_beta1, DBL_EPSILON,
    Fin.sum_univ_one]
  norm_num

/-- Claim C2, amended: in the `SPACETIME_PAST` branch the right state `uR` is
drawn from the past time-slab's solution vector via the precomputed trace
correspondence, but `graduR` and `hessuR` are contracted from the current-slab
coefficient argument `unkelR`; `h_DDG = 2·n·(x_Γ−c_L)` up to the machine
epsilon clamp (exact whenever its magnitude is at least machine epsilon). -/
theorem spacetime_past_grad_eq_amended {neq ndim nbL nbR : ℕ}
    (qp : SpacetimePastQP neq ndim nbL nbR) (interior_penalty : Bool)
    (hh : DBL_EPSILON ≤ |qp.h_ddg_raw|) :
    SpacetimePastQP.grad_ddg interior_penalty qp =
      SpacetimePastQP.grad_ddg_amended interior_penalty qp := by
  funext ieq idim
  simp only [SpacetimePastQP.grad_ddg, SpacetimePastQP.grad_ddg_amended,
    ddg_beta0, ddg_beta1, copysign_clamp_eq_self qp.h_ddg_raw hh]

/-- Witness for the amended claim C2 at the concrete quadrature point `stQP`
(raw length scale 2). -/
theorem spacetime_past_grad_eq_amended_witness :
    DBL_EPSILON ≤ |SpacetimePastQP.h_ddg_raw stQP| ∧
      SpacetimePastQP.grad_ddg false stQP =
        SpacetimePastQP.grad_ddg_amended false stQP := by
  have hh : DBL_EPSILON ≤ |SpacetimePastQP.h_ddg_raw stQP| := by
    simp only [SpacetimePastQP.h_ddg_raw, stQP, Fin.sum_univ_one]
    norm_num [DBL_EPSILON]
  exact ⟨hh, spacetime_past_grad_eq_amended stQP false hh⟩

/-! ### Theorems for the Dirichlet DDG gradient (claim C3) -/

/-- Counterexample for claim C3: with unit normal `(3/5, −4/5)` and offset
`x_Γ − c_L = (1, 1)`, the source computes the length scale as the sum of
component-wise absolute products `Σ_i |n_i·(x_Γ−c_L)_i| = 7/5`
(conservation_law.hpp lines 707-712), not as the absolute dot product
`|n·(x_Γ−c_L)| = 1/5` the claim states, and the gradients differ. -/
theorem dirichlet_ddg_counterexample :
    DirichletQP.grad_ddg dirQP 0 0 ≠ DirichletQP.grad_ddg_spec dirQP 0 0 := by
  simp only [DirichletQP.grad_ddg, DirichletQP.grad_ddg_spec,
    DirichletQP.h_ddg_raw, DirichletQP.dirichlet_vals, qp_value, contract_grad,
    dirQP, copysign_clamp, ddg_beta0, DBL_EPSILON, Fin.sum_univ_two,
    Fin.sum_univ_one]
  norm_num [abs_eq_max_neg, max_def]

/-- Claim C3, amended: in the `DIRICHLET` branch the exterior state is the
Dirichlet callback value `g(x_Γ)` at the physical point and the single-valued
gradient is `β0·(uR−uL)/h_DDG·n + ∇uL`, but with
`h_DDG = Σ_i |n_i·(x_Γ−c_L)_i|` (the sum of component-wise absolute products,
clamped below by machine epsilon; exact whenever that sum is at least machine
epsilon). -/
theorem dirichlet_ddg_grad_eq_amended {neq ndim nbL : ℕ}
    (qp : DirichletQP neq ndim nbL) (hh : DBL_EPSILON ≤ qp.h_ddg_raw) :
    DirichletQP.grad_ddg qp = DirichletQP.grad_ddg_amended qp := by
  have habs : DBL_EPSILON ≤ |qp.h_ddg_raw| := le_trans hh (le_abs_self _)
  funext ieq idim
  simp only [DirichletQP.grad_ddg, DirichletQP.grad_ddg_amended, ddg_beta0,
    copysign_clamp_eq_self qp.h_ddg_raw habs]
  simp only [DirichletQP.h_ddg_raw]

/-- Witness for the amended claim C3 at the concrete quadrature point `dirQP`
(length scale `7/5`). -/
theorem dirichlet_ddg_grad_eq_amended_witness :
    DBL_EPSILON ≤ DirichletQP.h_ddg_raw dirQP ∧
      DirichletQP.grad_ddg dirQP = DirichletQP.grad_ddg_amended dirQP := by
  have hh : DBL_EPSILON ≤ DirichletQP.h_ddg_raw dirQP := by
    simp only [DirichletQP.h_ddg_raw, dirQP, Fin.sum_univ_two]
    norm_num [DBL_EPSILON, abs_eq_max_neg, max_def]
  exact ⟨hh, dirichlet_ddg_grad_eq_amended dirQP hh⟩

/-! ### Theorems for interface conservation (claim C4) -/

/-- Helper: the quadrature loop of `interface_conservation` expands to the
starting residual minus the quadrature sum of the (hack-adjusted) normal flux
jump times the trace basis function. -/
theorem ic_foldl_eq {neq ndim nbL nbR nbtr : ℕ} (inp : ICInput neq ndim nbL nbR nbtr)
    (l : List (ICQP neq ndim nbL nbR nbtr)) :
    ∀ (res0 : Fin nbtr → Fin neq → ℚ) (itest : Fin nbtr) (ieq : Fin neq),
    l.foldl inp.ic_qp_update res0 itest ieq =
      res0 itest ieq - (l.map (fun qp =>
        ((∑ k, inp.phys_flux (qp_value inp.unkelR qp.biR)
            (if inp.orderL = 1 ∧ inp.orderR = 1 then fun _ _ => 0
              else contract_grad inp.unkelR qp.gradBiR) ieq k * qp.unit_normal k)
          - (∑ k, inp.phys_flux (qp_value inp.unkelL qp.biL)
              (if inp.orderL = 1 ∧ inp.orderR = 1 then fun _ _ => 0
                else contract_grad inp.unkelL qp.gradBiL) ieq k * qp.unit_normal k))
          * qp.bitrace itest * qp.weight * qp.sqrtg)).sum := by
  induction l with
  | nil =>
      intro res0 itest ieq
      simp
  | cons qp rest ih =>
      intro res0 itest ieq
      rw [List.foldl_cons, ih, List.map_cons, List.sum_cons]
      simp only [ICInput.ic_qp_update]
      ring

/-- Counterexample for claim C4: with both sides at order 1 and a
gradient-dependent physical flux, the source zeroes the gradient buffers before
flux evaluation (the p=1 HACK, conservation_law.hpp lines 1262-1266) and
subtracts the jump (`res -= …`, line 1284), so the accumulated residual is −1
while the claimed accumulation of `∫(F(uR,∇uR)·n − F(uL,∇uL)·n)φ dS` is 2. -/
theorem interface_conservation_counterexample :
    ICInput.interface_conservation icInput (fun _ _ => 0) 0 0 ≠
      ICInput.interface_conservation_spec icInput (fun _ _ => 0) 0 0 := by
  simp only [ICInput.interface_conservation, ICInput.interface_conservation_spec,
    ICInput.ic_qp_update, icInput, qp_value, contract_grad, Fin.sum_univ_one,
    List.foldl_cons, List.foldl_nil, List.map_cons, List.map_nil,
    List.sum_cons, List.sum_nil]
  norm_num

/-- Claim C4, amended: for every interior trace, `interface_conservation`
subtracts from the trace-basis residual the quadrature evaluation (with the
Riemannian root determinant as the surface measure) of
`(F(uR,∇uR)·n − F(uL,∇uL)·n)·φ_trace`, i.e. it accumulates the negation of the
claimed `r_IC(Γ)`, and when both sides are order 1 the gradient arguments of
both flux evaluations are zeroed (the documented HACK). -/
theorem interface_conservation_eq_amended {neq ndim nbL nbR nbtr : ℕ}
    (inp : ICInput neq ndim nbL nbR nbtr) (res0 : Fin nbtr → Fin neq → ℚ) :
    ICInput.interface_conservation inp res0 =
      ICInput.interface_conservation_amended inp res0 := by
  funext itest ieq
  rw [ICInput.interface_conservation, ic_foldl_eq inp inp.qps res0 itest ieq]
  rfl

/-! ### Theorems for the Gauss-Newton regularizer (claim C5) -/

/-- Helper: a fold of pointwise increments at indices `g iv` adds, at each flat
index `i`, the increment once per list entry mapped to `i`. -/
theorem foldl_addAt_eq (g : ℕ → ℕ) (δ : ℚ) (l : List ℕ) :
    ∀ (lam : ℕ → ℚ) (i : ℕ),
    (l.foldl (fun lam iv => addAt lam (g iv) δ) lam) i =
      lam i + ((l.filter (fun iv => g iv == i)).length : ℚ) * δ := by
  induction l with
  | nil =>
      intro lam i
      simp
  | cons iv rest ih =>
      intro lam i
      rw [List.foldl_cons, ih]
      by_cases h : g iv = i
      · have h1 : List.filter (fun iv => g iv == i) (iv :: rest) =
            iv :: List.filter (fun iv => g iv == i) rest := by
          simp [List.filter_cons, h]
        have h2 : addAt lam (g iv) δ i = lam i + δ := by
          rw [addAt, if_pos h.symm]
        rw [h1, h2, List.length_cons]
        push_cast
        ring
      · have h1 : List.filter (fun iv => g iv == i) (iv :: rest) =
            List.filter (fun iv => g iv == i) rest := by
          simp [List.filter_cons, h]
        have h2 : addAt lam (g iv) δ i = lam i := by
          rw [addAt, if_neg (fun hc => h hc.symm)]
        rw [h1, h2]

/-- Helper: the node loop of one element adds `δ` to flat row `i` exactly
`nodeHits` times per node. -/
theorem nodes_foldl_add (cfg : LMConfig) (δ : ℚ) (l : List ℕ) :
    ∀ (lam : ℕ → ℚ) (i : ℕ),
    (l.foldl (fun lam inode =>
      if cfg.inv_selected_nodes inode ≠ cfg.n_selected then
        (List.range (cfg.nv (cfg.inv_selected_nodes inode))).foldl
          (fun lam iv =>
            addAt lam (cfg.Nu + cfg.geo_index (cfg.inv_selected_nodes inode) iv) δ)
          lam
      else lam) lam) i =
      lam i + ((l.map (fun inode => cfg.nodeHits inode i)).sum : ℚ) * δ := by
  induction l with
  | nil =>
      intro lam i
      simp
  | cons inode rest ih =>
      intro lam i
      rw [List.foldl_cons, ih, List.map_cons, List.sum_cons]
      by_cases h : cfg.inv_selected_nodes inode ≠ cfg.n_selected
      · rw [if_pos h,
          foldl_addAt_eq (fun iv => cfg.Nu + cfg.geo_index (cfg.inv_selected_nodes inode) iv) δ]
        rw [LMConfig.nodeHits, if_pos h]
        push_cast
        ring
      · rw [if_neg h, LMConfig.nodeHits, if_neg h]
        push_cast
        ring

/-- Helper: the element loop of the explicit regularizer expands to a sum of
per-element contributions `elHits·(λ_lag/detJ)`. -/
theorem elements_foldl_add (cfg : LMConfig) (l : List LMElement) :
    ∀ (lam : ℕ → ℚ) (i : ℕ),
    (l.foldl cfg.lambda_el_add lam) i =
      lam i + (l.map (fun el => (cfg.elHits el i : ℚ) * (cfg.lambda_lag / el_detJ el))).sum := by
  induction l with
  | nil =>
      intro lam i
      simp
  | cons el rest ih =>
      intro lam i
      rw [List.foldl_cons, ih, List.map_cons, List.sum_cons]
      show LMConfig.lambda_el_add cfg lam el i + _ = _
      rw [LMConfig.lambda_el_add, nodes_foldl_add cfg (cfg.lambda_lag / el_detJ el) el.nodes,
        LMConfig.elHits]
      ring

/-- Counterexample for claim C5, at a system with one solution row, one
geometry row, one element (determinant 4 at its single quadrature point)
containing the one selected node, and the Jacobian with columns `(3,4)`,
`(0,1)`: the stated column norms 5 and 1 are exact; the explicitly formed
diagonal uses `min(1.0, min_qp|detJ|) = 1` (the running minimum of
corrigan_lm.hpp line 443 starts at 1.0), not `min_qp|detJ| = 4`, so it differs
from the claimed `Λ`; and the matrix-free product of `impl::gn_subproblem`
omits the `λ_lag` term entirely, so it is not `Jᵀ(Jx) + Λx` with the claimed
`Λ` either. -/
theorem corrigan_lambda_counterexample :
    ((lmColnorm 0) ^ 2 = ∑ r, (lmJ r 0) ^ 2 ∧ (lmColnorm 1) ^ 2 = ∑ r, (lmJ r 1) ^ 2) ∧
    LMConfig.lambda_explicit lmCfg lmColnorm 1 ≠ LMConfig.lambda_claim lmCfg lmColnorm 1 ∧
    gn_subproblem lmJ 1 (1 / 10 ^ 7) (1 / 100) (fun c => lmColnorm c) lmX 1 ≠
      (∑ c, (∑ r, lmJ r 1 * lmJ r c) * lmX c) +
        LMConfig.lambda_claim lmCfg lmColnorm 1 * lmX 1 := by
  refine ⟨⟨?_, ?_⟩, ?_, ?_⟩
  · simp [lmColnorm, lmJ, Fin.sum_univ_two]
    norm_num
  · simp [lmColnorm, lmJ, Fin.sum_univ_two]
  · have h1 : LMConfig.lambda_explicit lmCfg lmColnorm 1 = 101 / 100 := by
      norm_num [LMConfig.lambda_explicit, LMConfig.lambda_el_add, LMConfig.lambda_base,
        lmCfg, lmColnorm, el_detJ, el_min_detJ, addAt, List.range_succ,
        abs_eq_max_neg, max_def, min_def]
    have h2 : LMConfig.lambda_claim lmCfg lmColnorm 1 = 13 / 50 := by
      norm_num [LMConfig.lambda_claim, LMConfig.node_targets, lmCfg, lmColnorm,
        spec_el_detJ, List.range_succ, abs_eq_max_neg, max_def, min_def]
    rw [h1, h2]
    norm_num
  · have h3 : gn_subproblem lmJ 1 (1 / 10 ^ 7) (1 / 100) (fun c => lmColnorm c) lmX 1 =
        101 / 100 := by
      norm_num [gn_subproblem, lmJ, lmX, lmColnorm, Fin.sum_univ_two, max_def]
    have h4 : (∑ c, (∑ r, lmJ r 1 * lmJ r c) * lmX c) +
        LMConfig.lambda_claim lmCfg lmColnorm 1 * lmX 1 = 63 / 50 := by
      norm_num [LMConfig.lambda_claim, LMConfig.node_targets, lmCfg, lmColnorm, lmJ,
        lmX, spec_el_detJ, Fin.sum_univ_two, List.range_succ, abs_eq_max_neg,
        max_def, min_def]
    rw [h3, h4]
    norm_num

/-- Claim C5, amended: the explicitly formed diagonal regularizer is the
column-scaled base (`λ_u·‖J_{:,i}‖` on solution rows,
`max(λ_b, λ_b·‖J_{:,i}‖)` on geometry rows) plus, per element and per matching
layout component of each of its selected nodes,
`λ_lag / max(1e-8, min(1.0, min_qp |detJ_e|))` — the running minimum of the
quadrature determinants starts at 1.0; the matrix-free product applies only the
column-scaled diagonal, `y_i = (JᵀJx)_i + x_i·(λ_u·‖J_{:,i}‖)` on solution rows
and `y_i = (JᵀJx)_i + x_i·max(λ_b, λ_b·‖J_{:,i}‖)` on geometry rows, with no
`λ_lag` term. -/
theorem corrigan_lambda_amended :
    (∀ (cfg : LMConfig) (colnorm : ℕ → ℚ) (i : ℕ),
      LMConfig.lambda_explicit cfg colnorm i = LMConfig.lambda_base cfg colnorm i +
        (cfg.elements.map
          (fun el => (cfg.elHits el i : ℚ) * (cfg.lambda_lag / el_detJ el))).sum) ∧
    (∀ (nr nc : ℕ) (J : Fin nr → Fin nc → ℚ) (npde : ℕ) (lu lb : ℚ)
      (colnorm : Fin nc → ℚ) (x : Fin nc → ℚ) (i : Fin nc),
      gn_subproblem J npde lu lb colnorm x i =
        (∑ c, (∑ r, J r i * J r c) * x c) +
          (if (i : ℕ) < npde then lu * colnorm i else max lb (lb * colnorm i)) * x i) := by
  constructor
  · intro cfg colnorm i
    exact elements_foldl_add cfg cfg.elements (cfg.lambda_base colnorm) i
  · intro nr nc J npde lu lb colnorm x i
    simp only [gn_subproblem]
    have hswap : (∑ r, J r i * ∑ c, J r c * x c) = ∑ c, (∑ r, J r i * J r c) * x c :=
      calc (∑ r, J r i * ∑ c, J r c * x c)
          = ∑ r, ∑ c, J r i * (J r c * x c) := by
            simp_rw [Finset.mul_sum]
        _ = ∑ c, ∑ r, J r i * (J r c * x c) := Finset.sum_comm
        _ = ∑ c, (∑ r, J r i * J r c) * x c := by
            simp_rw [Finset.sum_mul, mul_assoc]
    rw [hswap]
    congr 1
    split_ifs with h
    · ring
    · ring

/-! ### Theorems for the Burgers mesh face counts (claim C6) -/

/-- Claim C6: `burgers_linear_mesh(initial = true)` has 12 nodes and 6
elements, its interior face range contains exactly 7 faces, and its boundary
face range contains exactly 10 faces. -/
theorem burgers_mesh_counts :
    burgers_linear_mesh.nodes.length = 12 ∧
    burgers_linear_mesh.elements.length = 6 ∧
    burgers_linear_mesh.interiorFaceEnd - burgers_linear_mesh.interiorFaceStart = 7 ∧
    burgers_linear_mesh.bdyFaceEnd - burgers_linear_mesh.bdyFaceStart = 10 := by
  refine ⟨rfl, rfl, ?_, ?_⟩
  · rfl
  · rfl

/-! ### Theorems for the Lagrange partition of unity (claim C7) -/

/-- Helper: the node recurrence of lagrange_1d.hpp line 37. -/
theorem xi_nodes_succ (Pn : ℕ) (j : ℕ) :
    xi_nodes Pn (j + 1) = xi_nodes Pn j + 2 / Pn := rfl

/-- Helper: for positive order the uniform nodes are strictly increasing. -/
theorem xi_nodes_strictMono (Pn : ℕ) (hPn : Pn ≠ 0) : StrictMono (xi_nodes Pn) := by
  have hq : (0 : ℚ) < (Pn : ℚ) := by
    exact_mod_cast Nat.pos_of_ne_zero hPn
  apply strictMono_nat_of_lt_succ
  intro j
  rw [xi_nodes_succ]
  have : (0 : ℚ) < 2 / Pn := by positivity
  linarith

/-- Helper: the uniform nodes are injective on the index range. -/
theorem xi_nodes_injOn (Pn : ℕ) (hPn : Pn ≠ 0) :
    Set.InjOn (xi_nodes Pn) (Finset.range (Pn + 1)) :=
  Set.injOn_of_injective (xi_nodes_strictMono Pn hPn).injective

/-- Helper: the pivot search never moves left of its start. -/
theorem pivot_go_ge (Pn : ℕ) (x : ℚ) : ∀ (fuel k : ℕ), k ≤ pivot_go Pn x k fuel := by
  intro fuel
  induction fuel with
  | zero =>
      intro k
      simp [pivot_go]
  | succ fuel ih =>
      intro k
      rw [pivot_go]
      split_ifs with h
      · exact le_trans (Nat.le_succ k) (ih (k + 1))
      · exact le_refl k

/-- Helper: the pivot search is bounded by its fuel. -/
theorem pivot_go_le (Pn : ℕ) (x : ℚ) : ∀ (fuel k : ℕ), pivot_go Pn x k fuel ≤ k + fuel := by
  intro fuel
  induction fuel with
  | zero =>
      intro k
      simp [pivot_go]
  | succ fuel ih =>
      intro k
      rw [pivot_go]
      split_ifs with h
      · calc pivot_go Pn x (k + 1) fuel ≤ k + 1 + fuel := ih (k + 1)
          _ = k + (fuel + 1) := by omega
      · omega

/-- Helper: every index passed over by the pivot search satisfied the bisector test. -/
theorem pivot_go_mid_le (Pn : ℕ) (x : ℚ) :
    ∀ (fuel k j : ℕ), k ≤ j → j < pivot_go Pn x k fuel →
      (xi_nodes Pn j + xi_nodes Pn (j + 1)) / 2 ≤ x := by
  intro fuel
  induction fuel with
  | zero =>
      intro k j hkj hlt
      rw [pivot_go] at hlt
      omega
  | succ fuel ih =>
      intro k j hkj hlt
      rw [pivot_go] at hlt
      split_ifs at hlt with h
      · rcases Nat.eq_or_lt_of_le hkj with heq | hgt
        · exact heq ▸ h
        · exact ih (k + 1) j hgt hlt
      · omega

/-- Helper: when the pivot search stops early, the bisector test failed there. -/
theorem pivot_go_stop (Pn : ℕ) (x : ℚ) :
    ∀ (fuel k : ℕ), pivot_go Pn x k fuel < k + fuel →
      x < (xi_nodes Pn (pivot_go Pn x k fuel) + xi_nodes Pn (pivot_go Pn x k fuel + 1)) / 2 := by
  intro fuel
  induction fuel with
  | zero =>
      intro k hlt
      rw [pivot_go] at hlt ⊢
      omega
  | succ fuel ih =>
      intro k hlt
      rw [pivot_go] at hlt ⊢
      split_ifs at hlt ⊢ with h
      · exact ih (k + 1) (by omega)
      · exact lt_of_not_le h

/-- Helper: the pivot is at most `Pn`. -/
theorem pivot_le (Pn : ℕ) (x : ℚ) : pivot Pn x ≤ Pn := by
  have := pivot_go_le Pn x Pn 0
  simpa [pivot] using this

/-- Helper: indices left of the pivot satisfied the bisector test. -/
theorem pivot_mid_le (Pn : ℕ) (x : ℚ) (j : ℕ) (hj : j < pivot Pn x) :
    (xi_nodes Pn j + xi_nodes Pn (j + 1)) / 2 ≤ x :=
  pivot_go_mid_le Pn x Pn 0 j (Nat.zero_le j) hj

/-- Helper: left of `Pn`, the pivot fails the bisector test. -/
theorem pivot_stop (Pn : ℕ) (x : ℚ) (h : pivot Pn x < Pn) :
    x < (xi_nodes Pn (pivot Pn x) + xi_nodes Pn (pivot Pn x + 1)) / 2 := by
  have h2 : pivot_go Pn x 0 Pn < 0 + Pn := by
    have hp : pivot Pn x = pivot_go Pn x 0 Pn := rfl
    omega
  have := pivot_go_stop Pn x Pn 0 h2
  exact this

/-- Helper: the evaluation point never coincides with a non-pivot node, so the off-pivot barycentric division is well defined. -/
theorem x_ne_node (Pn : ℕ) (hPn : Pn ≠ 0) (x : ℚ) (j : ℕ) (hj : j ≤ Pn)
    (hne : j ≠ pivot Pn x) : x - xi_nodes Pn j ≠ 0 := by
  have hmono := xi_nodes_strictMono Pn hPn
  rcases Nat.lt_or_ge j (pivot Pn x) with hlt | hge
  · have hmid := pivot_mid_le Pn x j hlt
    have hnode : xi_nodes Pn j < xi_nodes Pn (j + 1) := hmono (Nat.lt_succ_self j)
    have : xi_nodes Pn j < x := by
      have : xi_nodes Pn j < (xi_nodes Pn j + xi_nodes Pn (j + 1)) / 2 := by linarith
      linarith
    exact sub_ne_zero_of_ne (ne_of_gt this)
  · have hgt : pivot Pn x < j := lt_of_le_of_ne hge (Ne.symm hne)
    have hpl : pivot Pn x < Pn := lt_of_lt_of_le hgt hj
    have hstop := pivot_stop Pn x hpl
    have hnode : xi_nodes Pn (pivot Pn x) < xi_nodes Pn (pivot Pn x + 1) :=
      hmono (Nat.lt_succ_self _)
    have hxlt : x < xi_nodes Pn (pivot Pn x + 1) := by linarith
    have hle : xi_nodes Pn (pivot Pn x + 1) ≤ xi_nodes Pn j :=
      hmono.monotone (by omega)
    exact sub_ne_zero_of_ne (ne_of_lt (by linarith))

/-- Helper: evaluation of the Mathlib Lagrange basis polynomial in product form. -/
theorem eval_lagrange_basis (s : Finset ℕ) (v : ℕ → ℚ) (j : ℕ) (x : ℚ) :
    Polynomial.eval x (Lagrange.basis s v j) =
      (∏ i ∈ s.erase j, (x - v i)) * (1 / ∏ i ∈ s.erase j, (v j - v i)) := by
  rw [Lagrange.basis, Polynomial.eval_prod]
  rw [one_div, ← Finset.prod_inv_distrib, ← Finset.prod_mul_distrib]
  refine Finset.prod_congr rfl ?_
  intro i _
  rw [Lagrange.basisDivisor]
  rw [Polynomial.eval_mul, Polynomial.eval_C, Polynomial.eval_sub,
    Polynomial.eval_X, Polynomial.eval_C]
  ring

/-- Helper: for `Pn >= 2` the barycentric values of `eval_all` are exactly the Lagrange basis polynomials evaluated at the point. -/
theorem eval_all_eq_basis (Pn : ℕ) (hPn : 2 ≤ Pn) (x : ℚ) (j : ℕ)
    (hj : j ∈ Finset.range (Pn + 1)) :
    eval_all Pn x j =
      Polynomial.eval x (Lagrange.basis (Finset.range (Pn + 1)) (xi_nodes Pn) j) := by
  have h0 : Pn ≠ 0 := by omega
  have h1 : Pn ≠ 1 := by omega
  rw [eval_lagrange_basis, eval_all, if_neg h0, if_neg h1]
  by_cases hpiv : j = pivot Pn x
  · rw [if_pos hpiv, lskip, wj, ← hpiv]
  · rw [if_neg hpiv]
    have hpmem : pivot Pn x ∈ Finset.range (Pn + 1) := by
      have := pivot_le Pn x
      exact Finset.mem_range.mpr (by omega)
    have hfull : lskip Pn x * (x - xi_nodes Pn (pivot Pn x)) =
        ∏ i ∈ Finset.range (Pn + 1), (x - xi_nodes Pn i) := by
      rw [lskip, mul_comm]
      exact Finset.mul_prod_erase (Finset.range (Pn + 1)) (fun i => x - xi_nodes Pn i) hpmem
    have hsplit : (∏ i ∈ Finset.range (Pn + 1), (x - xi_nodes Pn i)) =
        (x - xi_nodes Pn j) * ∏ i ∈ (Finset.range (Pn + 1)).erase j, (x - xi_nodes Pn i) :=
      (Finset.mul_prod_erase _ _ hj).symm
    have hjle : j ≤ Pn := by
      have := Finset.mem_range.mp hj
      omega
    have hne : x - xi_nodes Pn j ≠ 0 :=
      x_ne_node Pn h0 x j hjle hpiv
    rw [wj]
    rw [div_eq_iff hne]
    rw [hfull, hsplit]
    ring

/-- Helper: partition of unity of `eval_all` for every order and point. -/
theorem eval_all_sum (Pn : ℕ) (x : ℚ) :
    ∑ j ∈ Finset.range (Pn + 1), eval_all Pn x j = 1 := by
  match Pn with
  | 0 =>
      simp [eval_all]
  | 1 =>
      rw [Finset.sum_range_succ, Finset.sum_range_one]
      simp only [eval_all]
      norm_num
  | (n + 2) =>
      have h2 : 2 ≤ n + 2 := by omega
      have h0 : (n + 2) ≠ 0 := by omega
      rw [Finset.sum_congr rfl (fun j hj => eval_all_eq_basis (n + 2) h2 x j hj)]
      rw [← Polynomial.eval_finset_sum]
      rw [Lagrange.sum_basis (xi_nodes_injOn (n + 2) h0)
        (by exact Finset.nonempty_range_iff.mpr (by omega))]
      exact Polynomial.eval_one

/-- Helper: the axis fill through dimension `d` is the product of the per-axis evaluations at each digit. -/
theorem fill_dims_eq_prod (n ndim : ℕ) (ev : ℕ → ℕ → ℚ) :
    ∀ (d i : ℕ), fill_dims n ndim ev d i =
      ∏ e ∈ Finset.range (d + 1), ev e (tp_digit n ndim e i) := by
  intro d
  induction d with
  | zero =>
      intro i
      simp [fill_dims]
  | succ d ih =>
      intro i
      rw [fill_dims, ih,
        Finset.prod_range_succ (fun e => ev e (tp_digit n ndim e i)) (d + 1)]

/-- Helper: `fill_shp` computes the tensor product of the 1D evaluations. -/
theorem fill_shp_eq_prod (n ndim : ℕ) (ev : ℕ → ℕ → ℚ) (i : ℕ) :
    fill_shp n ndim ev i = ∏ d ∈ Finset.range ndim, ev d (tp_digit n ndim d i) := by
  rcases ndim with _ | m
  · simp [fill_shp]
  · rw [fill_shp, if_neg (by omega), fill_dims_eq_prod]
    have hm : m + 1 - 1 + 1 = m + 1 := by omega
    rw [hm]

/-- Helper: the lexicographic digit of a flat index under the Mathlib digit equivalence. -/
theorem tp_digit_equiv {n m : ℕ} (f : Fin m → Fin n) (d : Fin m) :
    tp_digit n m (d : ℕ) ((finFunctionFinEquiv f : Fin (n ^ m)) : ℕ) =
      ((f d.rev : Fin n) : ℕ) := by
  have hval : ((f d.rev : Fin n) : ℕ) =
      ((finFunctionFinEquiv f : Fin (n ^ m)) : ℕ) / n ^ ((d.rev : Fin m) : ℕ) % n := by
    conv_lhs => rw [← Equiv.symm_apply_apply finFunctionFinEquiv f]
    simp [finFunctionFinEquiv]
  rw [hval, tp_digit, Fin.val_rev]
  have hexp : m - 1 - (d : ℕ) = m - ((d : ℕ) + 1) := by omega
  rw [hexp]

/-- Helper: summing the tensor-product shape functions factors into the product of the per-axis sums. -/
theorem fill_shp_sum_eq_prod_sum (n ndim : ℕ) (ev : ℕ → ℕ → ℚ) :
    ∑ i ∈ Finset.range (n ^ ndim), fill_shp n ndim ev i =
      ∏ d ∈ Finset.range ndim, ∑ j ∈ Finset.range n, ev d j := by
  calc ∑ i ∈ Finset.range (n ^ ndim), fill_shp n ndim ev i
      = ∑ p : Fin (n ^ ndim), fill_shp n ndim ev (p : ℕ) :=
        (Fin.sum_univ_eq_sum_range _ _).symm
    _ = ∑ f : Fin ndim → Fin n, fill_shp n ndim ev ((finFunctionFinEquiv f : Fin (n ^ ndim)) : ℕ) :=
        (Equiv.sum_comp finFunctionFinEquiv
          (fun p : Fin (n ^ ndim) => fill_shp n ndim ev (p : ℕ))).symm
    _ = ∑ f : Fin ndim → Fin n, ∏ d : Fin ndim, ev (d : ℕ) ((f d.rev : Fin n) : ℕ) := by
        refine Finset.sum_congr rfl ?_
        intro f _
        rw [fill_shp_eq_prod, ← Fin.prod_univ_eq_prod_range]
        refine Finset.prod_congr rfl ?_
        intro d _
        rw [tp_digit_equiv]
    _ = ∑ f : Fin ndim → Fin n, ∏ d : Fin ndim, ev ((d.rev : Fin ndim) : ℕ) ((f d : Fin n) : ℕ) := by
        refine Finset.sum_congr rfl ?_
        intro f _
        have := Equiv.prod_comp (Fin.revPerm (n := ndim))
          (fun d : Fin ndim => ev ((d.rev : Fin ndim) : ℕ) ((f d : Fin n) : ℕ))
        rw [← this]
        refine Finset.prod_congr rfl ?_
        intro d _
        simp [Fin.revPerm]
    _ = ∏ d : Fin ndim, ∑ j : Fin n, ev ((d.rev : Fin ndim) : ℕ) (j : ℕ) :=
        (Fintype.prod_sum (fun (d : Fin ndim) (j : Fin n) => ev ((d.rev : Fin ndim) : ℕ) (j : ℕ))).symm
    _ = ∏ d : Fin ndim, ∑ j : Fin n, ev (d : ℕ) (j : ℕ) := by
        have := Equiv.prod_comp (Fin.revPerm (n := ndim))
          (fun d : Fin ndim => ∑ j : Fin n, ev ((d : ℕ)) (j : ℕ))
        rw [← this]
        refine Finset.prod_congr rfl ?_
        intro d _
        simp [Fin.revPerm]
    _ = ∏ d ∈ Finset.range ndim, ∑ j : Fin n, ev d (j : ℕ) :=
        Fin.prod_univ_eq_prod_range (fun dd => ∑ j : Fin n, ev dd (j : ℕ)) ndim
    _ = ∏ d ∈ Finset.range ndim, ∑ j ∈ Finset.range n, ev d j := by
        refine Finset.prod_congr rfl ?_
        intro d _
        exact Fin.sum_univ_eq_sum_range _ _

/-- Claim C7: for every polynomial order `Pn` and every reference point, the
`Pn+1` values returned by `UniformLagrangeInterpolation::eval_all` sum to 1
(here exactly, in the idealised rational arithmetic, hence within any
floating-point tolerance), and consequently the tensor-product shape functions
filled by `QTypeProduct::fill_shp` from the per-axis evaluations sum to 1 at
every reference point of every dimension. -/
theorem lagrange_partition_of_unity :
    (∀ (Pn : ℕ) (x : ℚ), ∑ j ∈ Finset.range (Pn + 1), eval_all Pn x j = 1) ∧
    (∀ (Pn ndim : ℕ) (xi : ℕ → ℚ),
      ∑ i ∈ Finset.range ((Pn + 1) ^ ndim),
        fill_shp (Pn + 1) ndim (fun d => eval_all Pn (xi d)) i = 1) := by
  constructor
  · exact eval_all_sum
  · intro Pn ndim xi
    rw [fill_shp_sum_eq_prod_sum]
    rw [Finset.prod_congr rfl (fun d _ => eval_all_sum Pn (xi d))]
    exact Finset.prod_const_one

/-! ### Theorems for boundary condition name lookup (claim C9) -/

/-- Counterexample for claim C9: for the unrecognized name "bogus" the spec
demands a fatal configuration error (`none` in the spec-side model), but
`get_bc_from_name` silently returns `INTERIOR` — the ordinary default used for
interior faces — so the unknown name is not treated as an error at all. -/
theorem get_bc_unknown_not_fatal :
    get_bc_from_name_spec "bogus" = none ∧
    get_bc_from_name "bogus" = BOUNDARY_CONDITIONS.INTERIOR := by
  constructor
  · rfl
  · rfl

/-- Claim C9, amended: an input string recognized by no boundary-condition name
(i.e. where the spec-side lookup is `none`) is mapped by `get_bc_from_name` to
`BOUNDARY_CONDITIONS::INTERIOR`, the no-op default, with no error reported. -/
theorem get_bc_unknown_is_interior (bcname : String)
    (h : get_bc_from_name_spec bcname = none) :
    get_bc_from_name bcname = BOUNDARY_CONDITIONS.INTERIOR := by
  unfold get_bc_from_name
  unfold get_bc_from_name_spec at h
  split_ifs at h ⊢
  simp_all

/-- Witness for the amended claim C9 at the concrete unknown name "bogus". -/
theorem get_bc_unknown_is_interior_witness :
    get_bc_from_name "bogus" = BOUNDARY_CONDITIONS.INTERIOR :=
  get_bc_unknown_is_interior "bogus" (by rfl)

/-! ### Theorems for perturb_nodes (claim C10) -/

/-- Helper: the loop applies the perturbation to every node regardless of the
index or the `fixed_nodes` flags. -/
theorem perturb_nodes_go_eq_map {α : Type} (f : α → α) (fixed : List Bool) :
    ∀ (i : ℕ) (l : List α), perturb_nodes_go f fixed i l = l.map f := by
  intro i l
  induction l generalizing i with
  | nil => rfl
  | cons x rest ih =>
      simp [perturb_nodes_go, ih]

/-- Claim C10: `perturb_nodes` applies the perturbation function to every node
of the mesh; the `fixed_nodes` argument exempts nothing (the source guard is
`true || !fixed_nodes[inode]`). -/
theorem perturb_nodes_ignores_fixed {α : Type} (nodes : List α) (f : α → α)
    (fixed_nodes : List Bool) :
    perturb_nodes nodes f fixed_nodes = nodes.map f :=
  perturb_nodes_go_eq_map f fixed_nodes 0 nodes

end ICEicle
